import Mathlib

/-!
Verification of the git repository reference resolver of WfExS-backend
(src/wfexs_backend/fetchers/git.py).

The resolver is embedded shallowly:

* Python strings are modelled as lists of characters (`Str`), so that the
  string manipulation performed by the resolver can be reasoned about by
  list induction.  `strC` injects Lean string literals.
* The parts of `urllib.parse` exercised by the resolver (`urlparse`,
  `urlunparse`, `parse_qs` restricted to the `subdirectory` key,
  `unquote_plus`) are reimplemented following the CPython sources.
  `unquote_plus` is exact on ASCII percent escapes; CPython additionally
  performs UTF-8 decoding of multi-byte escape sequences, which the
  resolver never relies on.
* The two network collaborators are oracles passed explicitly:
  `LsOracle` models `dulwich.porcelain.ls_remote` (`none` models a raised
  `dulwich.errors.NotGitRepository`), and `HttpOracle` models the HTTP
  HEAD probe used for provider classification (`none` models any failure,
  which the code swallows).
* Exceptions are modelled with `Except`: `FindErr.repoGuess` is
  `RepoGuessException`, `FindErr.keyError` is the `KeyError` raised by
  `remote_refs_dict[HEAD_LABEL]`, and `GuessErr.fetcher` is
  `FetcherException`.
-/

set_option autoImplicit false

/-- Python strings, modelled as lists of characters. -/
abbrev Str := List Char

/-- Injection of a Lean string literal into the model. -/
def strC (s : String) : Str := s.data

/-- First-occurrence split, Python `s.split(sep, 1)` (`none` when `sep` does
not occur, in which case Python returns the one-element list `[s]`). -/
def splitOnceCh (sep : Char) : Str → Option (Str × Str)
  | [] => none
  | c :: rest =>
    if c = sep then some ([], rest)
    else (splitOnceCh sep rest).map (fun p => (c :: p.1, p.2))

/-- Python `s.split(sep)` for a one-character separator: all occurrences,
empty pieces kept, `"".split(sep) == [""]`. -/
def splitCh (sep : Char) : Str → List Str
  | [] => [[]]
  | c :: rest =>
    if c = sep then [] :: splitCh sep rest
    else
      match splitCh sep rest with
      | [] => [[c]]
      | h :: t => (c :: h) :: t

/-- Python `sep.join(pieces)` for a one-character separator. -/
def joinCh (sep : Char) : List Str → Str
  | [] => []
  | [s] => s
  | s :: rest => s ++ sep :: joinCh sep rest

/-- Boolean test that `pat` is a leading piece of the second argument. -/
def startsWithCL : Str → Str → Bool
  | [], _ => true
  | _ :: _, [] => false
  | p :: ps, c :: cs => p == c && startsWithCL ps cs

/-- Boolean substring test, Python `needle in hay`. -/
def containsSub (needle : Str) : Str → Bool
  | [] => needle.isEmpty
  | c :: rest => startsWithCL needle (c :: rest) || containsSub needle rest

/-- Scanner of `replaceAll`, structurally recursive on a fuel argument so
that it reduces definitionally; every step consumes at least one character,
so a fuel equal to the length of the string is never exhausted. -/
def replaceAllAux (pat rep : Str) : Nat → Str → Str
  | _, [] => []
  | 0, s => s
  | fuel + 1, c :: rest =>
    if pat ≠ [] ∧ startsWithCL pat (c :: rest) then
      rep ++ replaceAllAux pat rep fuel (rest.drop (pat.length - 1))
    else
      c :: replaceAllAux pat rep fuel rest

/-- Python `s.replace(pat, rep)`: replaces every non-overlapping occurrence,
scanning left to right. -/
def replaceAll (pat rep s : Str) : Str := replaceAllAux pat rep s.length s

/-- Value of a hexadecimal digit. -/
def hexDigit (c : Char) : Option Nat :=
  if '0' ≤ c ∧ c ≤ '9' then some (c.toNat - '0'.toNat)
  else if 'a' ≤ c ∧ c ≤ 'f' then some (c.toNat - 'a'.toNat + 10)
  else if 'A' ≤ c ∧ c ≤ 'F' then some (c.toNat - 'A'.toNat + 10)
  else none

/-- Percent-decoding of `%XX` escapes; invalid escapes are kept literally,
as CPython `urllib.parse.unquote` does. -/
def pctDecode : Str → Str
  | [] => []
  | c :: a :: b :: rest =>
    if c = '%' then
      match hexDigit a, hexDigit b with
      | some hi, some lo => Char.ofNat (16 * hi + lo) :: pctDecode rest
      | _, _ => c :: pctDecode (a :: b :: rest)
    else c :: pctDecode (a :: b :: rest)
  | c :: rest => c :: pctDecode rest

/-- Python `urllib.parse.unquote_plus`: plus signs become spaces, then
percent escapes are decoded. -/
def unquotePlus (s : Str) : Str :=
  pctDecode (s.map (fun c => if c = '+' then ' ' else c))

/-- Result of `urllib.parse.urlparse`, a six-component named tuple. -/
structure ParseResult where
  scheme : Str
  netloc : Str
  path : Str
  params : Str
  query : Str
  fragment : Str
deriving DecidableEq, Repr

/-- Characters allowed after the first one in a URL scheme
(`urllib.parse.scheme_chars`). -/
def schemeChar (c : Char) : Bool :=
  c.isAlpha || c.isDigit || c == '+' || c == '-' || c == '.'

/-- WHATWG C0-control-or-space class stripped by `urlsplit`. -/
def isC0OrSpace (c : Char) : Bool := decide (c.toNat ≤ 32)

/-- The input cleanup done by CPython `urlsplit`: strip leading and trailing
C0 controls and spaces, then remove every tab, carriage return and
line feed. -/
def preprocessUrl (u : Str) : Str :=
  let u1 := u.dropWhile isC0OrSpace
  let u2 := (u1.reverse.dropWhile isC0OrSpace).reverse
  u2.filter (fun c => !(c == '\t' || c == '\r' || c == '\n'))

/-- CPython `urllib.parse.urlsplit` (with `allow_fragments=True`):
scheme (validated and lowercased), netloc after a leading `//` up to the
first `/`, `?` or `#`, then fragment after the first `#`, then query after
the first `?`.  Bracketed-host validation (which raises `ValueError` on
unbalanced brackets) is not modelled; no input considered here contains
brackets. -/
def pyUrlsplit (url0 : Str) : ParseResult :=
  let u0 := preprocessUrl url0
  let sp :=
    match splitOnceCh ':' u0 with
    | some (pre, post) =>
      if pre ≠ [] ∧ (pre.headD ' ').isAlpha = true ∧ pre.all schemeChar = true then
        (pre.map Char.toLower, post)
      else ([], u0)
    | none => ([], u0)
  let np :=
    if startsWithCL (strC "//") sp.2 then
      let rest := sp.2.drop 2
      (rest.takeWhile (fun c => !(c == '/' || c == '?' || c == '#')),
       rest.dropWhile (fun c => !(c == '/' || c == '?' || c == '#')))
    else ([], sp.2)
  let uf :=
    match splitOnceCh '#' np.2 with
    | some (a, b) => (a, b)
    | none => (np.2, [])
  let uq :=
    match splitOnceCh '?' uf.1 with
    | some (a, b) => (a, b)
    | none => (uf.1, [])
  { scheme := sp.1, netloc := np.1, path := uq.1,
    params := [], query := uq.2, fragment := uf.2 }

/-- Schemes for which `urlparse` splits `;parameters` from the last path
segment (`urllib.parse.uses_params`). -/
def usesParams : List Str :=
  [strC "", strC "ftp", strC "hdl", strC "prospero", strC "http",
   strC "imap", strC "https", strC "shttp", strC "rtsp", strC "rtspu",
   strC "sip", strC "sips", strC "mms", strC "sftp", strC "tel"]

/-- CPython `urllib.parse._splitparams`: split at the first `;` of the last
path segment. -/
def splitParamsCL (u : Str) : Str × Str :=
  if u.any (fun c => c == '/') then
    let segs := splitCh '/' u
    let most := segs.dropLast
    let lastSeg := segs.getLastD []
    match splitOnceCh ';' lastSeg with
    | none => (u, [])
    | some (a, b) => (joinCh '/' (most ++ [a]), b)
  else
    match splitOnceCh ';' u with
    | none => (u, [])
    | some (a, b) => (a, b)

/-- CPython `urllib.parse.urlparse`. -/
def pyUrlparse (url : Str) : ParseResult :=
  let r := pyUrlsplit url
  if r.scheme ∈ usesParams ∧ r.path.any (fun c => c == ';') then
    let pp := splitParamsCL r.path
    { r with path := pp.1, params := pp.2 }
  else r

/-- CPython `urllib.parse.urlunsplit`. -/
def pyUrlunsplit (scheme netloc url query fragment : Str) : Str :=
  let u1 :=
    if netloc ≠ [] ∨ (url ≠ [] ∧ url.take 2 = strC "//") then
      strC "//" ++ netloc ++ (if url ≠ [] ∧ url.take 1 ≠ strC "/" then '/' :: url else url)
    else url
  let u2 := if scheme ≠ [] then scheme ++ ':' :: u1 else u1
  let u3 := if query ≠ [] then u2 ++ '?' :: query else u2
  if fragment ≠ [] then u3 ++ '#' :: fragment else u3

/-- CPython `urllib.parse.urlunparse`. -/
def pyUrlunparse (p : ParseResult) : Str :=
  let u := if p.params ≠ [] then p.path ++ ';' :: p.params else p.path
  pyUrlunsplit p.scheme p.netloc u p.query p.fragment

/-- One field of a query string, CPython `urllib.parse.parse_qsl` with the
default `keep_blank_values=False`: empty fields and fields without `=` or
with an empty raw value are dropped, names and values are unquoted. -/
def qsPair (field : Str) : Option (Str × Str) :=
  if field = [] then none
  else
    match splitOnceCh '=' field with
    | none => none
    | some (n, v) => if v = [] then none else some (unquotePlus n, unquotePlus v)

/-- CPython `urllib.parse.parse_qsl` (separator `&`). -/
def parseQsl (qs : Str) : List (Str × Str) :=
  (splitCh '&' qs).filterMap qsPair

/-- Lines 347-352 of git.py: when the fragment is non-empty, parse it as a
query string and take the first value of the `subdirectory` key, if any. -/
def getSubdirectory (frag : Str) : Option Str :=
  if frag.length > 0 then
    (parseQsl frag).findSome? (fun p => if p.1 = strC "subdirectory" then some p.2 else none)
  else none

/-- Modelled from the spec, section 3: the hosting-provider classification
enum `RepoType` of `wfexs_backend.common` (that module is not under src/);
the spec lists Git, GitHub, GitLab, BitBucket, Raw and Other/Unknown. -/
inductive RepoType
  | git
  | github
  | gitlab
  | bitbucket
  | raw
  | other
deriving DecidableEq, Repr

/-- Modelled from the spec, section 3: the immutable `RemoteRepo` record of
`wfexs_backend.common` (not under src/), with optional tag, relative path,
repo type and web URL, every optional field defaulting to absent. -/
structure RemoteRepo where
  repo_url : Str
  tag : Option Str := none
  rel_path : Option Str := none
  repo_type : Option RepoType := none
  web_url : Option Str := none
deriving DecidableEq, Repr

/-- A remote refs listing: ref label to ref pointer, in iteration order
(Python dict insertion order).  Ref labels and pointers are byte strings in
the code; they are modelled as `Str`. -/
abbrev RefsDict := List (Str × Str)

/-- Collaborator oracle for `dulwich.porcelain.ls_remote`: `none` models a
raised `dulwich.errors.NotGitRepository`. -/
abbrev LsOracle := Str → Option RefsDict

/-- Response of the HTTP HEAD probe: the `Set-Cookie` values and the
`X-View-Name` values. -/
structure HttpResp where
  setCookie : List Str
  xViewName : List Str

/-- Collaborator oracle for `urllib.request.urlopen` on the HEAD request:
`none` models any raised exception (swallowed by the code). -/
abbrev HttpOracle := Str → Option HttpResp

/-- Lines 529-556 of git.py: provider classification by response sniffing.
A cookie containing "gitlab" means GitLab, else a cookie containing
"github.com" means GitHub, else an X-View-Name value containing
"bitbucket" means BitBucket, else Raw; any failure leaves Raw. -/
def classifyHttp (resp : Option HttpResp) : RepoType :=
  match resp with
  | none => .raw
  | some r =>
    if r.setCookie.any (fun c => containsSub (strC "gitlab") c) then .gitlab
    else if r.setCookie.any (fun c => containsSub (strC "github.com") c) then .github
    else if r.xViewName.any (fun c => containsSub (strC "bitbucket") c) then .bitbucket
    else .raw

/-- `HEAD_LABEL` of git.py line 310. -/
def headLabel : Str := strC "HEAD"

/-- `REFS_HEADS_PREFIX` of git.py line 311. -/
def refsHeadsLabel : Str := strC "refs/heads/"

/-- Python dict lookup `remote_refs_dict[key]` as an option (a `none` models
the raised `KeyError`). -/
def lookupDict (d : RefsDict) (k : Str) : Option Str :=
  (d.find? (fun p => decide (p.1 = k))).map Prod.snd

/-- Lines 513-522 of git.py: scan the refs in iteration order, collecting
branch names (labels under refs/heads/ with that marker removed) and the
first branch whose pointer equals the pointer of HEAD. -/
def scanBranches (refs : RefsDict) (head_remote_ref : Str) : List Str × Option Str :=
  refs.foldl
    (fun acc p =>
      if startsWithCL refsHeadsLabel p.1 then
        let b_repo_tag := p.1.drop refsHeadsLabel.length
        (acc.1 ++ [b_repo_tag],
         if acc.2 = none ∧ p.2 = head_remote_ref then some b_repo_tag else acc.2)
      else acc)
    ([], none)

/-- Errors escaping `find_git_repo_in_uri`: `repoGuess` is
`RepoGuessException`; `keyError` is the unguarded `KeyError` of line 512
(`remote_refs_dict[HEAD_LABEL]` when the listing has no HEAD entry). -/
inductive FindErr
  | repoGuess (msg : Str)
  | keyError
deriving DecidableEq, Repr

/-- Successful result of `find_git_repo_in_uri` (line 574): the repo, the
path segments after the matched root, and the branch names. -/
structure FindResult where
  repo : RemoteRepo
  post : List Str
  branches : List Str
deriving DecidableEq, Repr

/-- Message of the `RepoGuessException` of line 559.  The code interpolates
the offending URL into the message; the constant text suffices here. -/
def unableMsg : Str := strC "Unable to identify the remote file as a git repo"

/-- Message of the `RepoGuessException` of lines 562-564, for a repository
whose HEAD does not resolve to any refs/heads entry. -/
def noTagMsg : Str := strC "No tag was obtained while getting default branch name"

/-- The sequence `range(len(sp_path), 0, -1)` of line 497: n, n-1, ..., 1. -/
def posList (n : Nat) : List Nat := (List.range n).reverse.map (· + 1)

/-- Lines 498-500 of git.py: the candidate path made of the first `pos`
segments, with the empty join replaced by "/". -/
def prePathOf (sp : List Str) (pos : Nat) : Str :=
  let pre := joinCh '/' (sp.take pos)
  if pre = [] then strC "/" else pre

/-- Line 501 of git.py: the candidate root URL, the parsed input with its
path replaced by the candidate path (params, query and fragment are kept by
`_replace`). -/
def probeUri (wf : ParseResult) (sp : List Str) (pos : Nat) : Str :=
  pyUrlunparse { wf with path := prePathOf sp pos }

/-- The loop state of lines 491-496 of git.py.  `shortest_pre_path` is
assigned by the loop but never read afterwards, exactly as in the code. -/
structure ProbeState where
  shortest_pre_path : Option Str := none
  longest_post_path : Option (List Str) := none
  repo_type : Option RepoType := none
  the_remote_uri : Option Str := none
  b_default_repo_tag : Option Str := none
  repo_branches : Option (List Str) := none
deriving DecidableEq, Repr

/-- Lines 497-556 of git.py: probe every candidate prefix, in `posList`
order.  A failed listing is skipped; a successful listing overwrites the
state (there is no break, so a later, shorter successful prefix wins); the
provider is classified only on the first success (expressed here as a
conditional value for the repo_type field, since the HTTP collaborator is
a pure oracle); a successful listing without a HEAD entry raises
KeyError. -/
def probeLoop (wf : ParseResult) (sp : List Str) (ls : LsOracle) (http : HttpOracle) :
    List Nat → ProbeState → Except FindErr ProbeState
  | [], st => .ok st
  | pos :: rest, st =>
    let remote_uri_anc := probeUri wf sp pos
    match ls remote_uri_anc with
    | none => probeLoop wf sp ls http rest st
    | some remote_refs_dict =>
      match lookupDict remote_refs_dict headLabel with
      | none => .error .keyError
      | some head_remote_ref =>
        let scanned := scanBranches remote_refs_dict head_remote_ref
        let st2 : ProbeState :=
          { the_remote_uri := some remote_uri_anc,
            b_default_repo_tag := scanned.2,
            repo_branches := some scanned.1,
            shortest_pre_path := some (prePathOf sp pos),
            longest_post_path := some (sp.drop pos),
            repo_type :=
              if st.repo_type = none then some (classifyHttp (http remote_uri_anc))
              else st.repo_type }
        probeLoop wf sp ls http rest st2

/-- Lines 482-574 of git.py, `find_git_repo_in_uri` on an already parsed
URL: run the probe loop over every path prefix, then fail if nothing probed
as a repo, fail distinctly if no default branch was derivable, otherwise
return the repo (with the default branch as tag), the remaining path
segments and the branch list. -/
def find_git_repo_in_uri (wf : ParseResult) (ls : LsOracle) (http : HttpOracle) :
    Except FindErr FindResult :=
  let sp_path := splitCh '/' wf.path
  match probeLoop wf sp_path ls http (posList sp_path.length) {} with
  | .error e => .error e
  | .ok st =>
    match st.repo_type with
    | none => .error (.repoGuess unableMsg)
    | some _ =>
      match st.b_default_repo_tag with
      | none => .error (.repoGuess noTagMsg)
      | some b_default =>
        .ok { repo := { repo_url := st.the_remote_uri.getD [],
                        tag := some b_default,
                        rel_path := none,
                        repo_type := st.repo_type,
                        web_url := none },
              post := st.longest_post_path.getD [],
              branches := st.repo_branches.getD [] }

/-- `find_git_repo_in_uri` on a URL string (the code accepts both and
parses the string first). -/
def find_git_repo_in_uri_str (s : Str) (ls : LsOracle) (http : HttpOracle) :
    Except FindErr FindResult :=
  find_git_repo_in_uri (pyUrlparse s) ls http

/-- Errors escaping `guess_git_repo_params`: `fetcher` is
`FetcherException`; `keyError` is the KeyError of `find_git_repo_in_uri`,
which the function does not catch (its handler only catches
`RepoGuessException`). -/
inductive GuessErr
  | fetcher (msg : Str)
  | keyError
deriving DecidableEq, Repr

/-- Message of the `FetcherException` of lines 452-454 (a caught
`RepoGuessException` re-raised when `fail_ok` is false).  The code
interpolates the URL; the constant text suffices here. -/
def cascadeFailMsg : Str :=
  strC "FIXME: Unsupported http(s) git repository (see cascade exception)"

/-- Message of the `FetcherException` of lines 461-463 (no parameters were
found and `fail_ok` is false). -/
def plainFailMsg : Str := strC "FIXME: Unsupported http(s) git repository"

/-- The keys of `GitFetcher.GetSchemeHandlers()` (lines 105-112): the `git`
protocol plus `git+https` and `git+http`. -/
def gitSchemeHandlers : List Str := [strC "git", strC "git+https", strC "git+http"]

/-- `GITHUB_SCHEME` of git.py line 87. -/
def githubScheme : Str := strC "github"

/-- `GITHUB_NETLOC` of git.py line 88. -/
def githubNetloc : Str := strC "github.com"

/-- Lines 337-340 of git.py: the scheme the git client understands, the
parsed scheme with every `git+` occurrence removed when it starts with
`git+`. -/
def gitSchemeOf (scheme : Str) : Str :=
  if startsWithCL (strC "git+") scheme then replaceAll (strC "git+") [] scheme
  else scheme

/-- Lines 343-345 of git.py: split the path at the first `@` into the git
path and the tag; without `@` the whole path is the git path and there is
no tag. -/
def gitPathTag (path : Str) : Str × Option Str :=
  match splitOnceCh '@' path with
  | some (a, b) => (a, some b)
  | none => (path, none)

/-- `lst[-1] += suffix` on a list of strings (lines 414-415 of git.py). -/
def appendToLast (l : List Str) (suffix : Str) : List Str :=
  match l with
  | [] => []
  | [x] => [x ++ suffix]
  | x :: rest => x :: appendToLast rest suffix

/-- Lines 392-409 of git.py: segmentation of GitHub blob/tree path segments
against the known branches.  The segments are percent-decoded and joined;
the first branch equal to the join or being a slash-terminated leading
piece of it wins; otherwise the fallback takes the first segment as the
tag and always joins the remaining segments (possibly into the empty
string) as the relative path. -/
def segmentBlobTree (segs : List Str) (branches : List Str) :
    Option Str × Option Str :=
  let wf_path_tag := segs.map unquotePlus
  let tag_relpath := joinCh '/' wf_path_tag
  match branches.find? (fun b =>
      decide (b = tag_relpath) || startsWithCL (b ++ strC "/") tag_relpath) with
  | some b =>
    if tag_relpath.length > b.length then
      let rest := tag_relpath.drop (b.length + 1)
      (some b, if rest.length > 0 then some rest else none)
    else (some b, none)
  | none =>
    match wf_path_tag with
    | [] => (none, none)
    | t :: rest => (some t, some (joinCh '/' rest))

/-- Lines 428-443 of git.py: the same segmentation for
raw.githubusercontent.com segments (already percent-decoded by the
caller), whose fallback sets the relative path only when more than one
segment remains. -/
def segmentRaw (segs : List Str) (branches : List Str) :
    Option Str × Option Str :=
  let tag_relpath := joinCh '/' segs
  match branches.find? (fun b =>
      decide (b = tag_relpath) || startsWithCL (b ++ strC "/") tag_relpath) with
  | some b =>
    if tag_relpath.length > b.length then
      let rest := tag_relpath.drop (b.length + 1)
      (some b, if rest.length > 0 then some rest else none)
    else (some b, none)
  | none =>
    match segs with
    | [] => (none, none)
    | t :: rest => (some t, if rest.length > 0 then some (joinCh '/' rest) else none)

/-- Lines 456-479 of git.py, the common tail of `guess_git_repo_params`:
when parameters were found, a missing tag defaults to the probed default
branch and the repo type is overwritten by the probed type; when none were
found, a hard failure unless `fail_ok`; then `None` when no repo URL was
derived, else the assembled `RemoteRepo`. -/
def finishGuess (found_params : Option FindResult) (repoURL : Option Str)
    (repoTag repoRelPath : Option Str) (repoType : Option RepoType)
    (fail_ok : Bool) : Except GuessErr (Option RemoteRepo) :=
  match found_params with
  | some fp =>
    let repoTag2 := match repoTag with | none => fp.repo.tag | some t => some t
    let repoType2 := fp.repo.repo_type
    .ok (repoURL.map (fun u =>
      { repo_url := u, tag := repoTag2, rel_path := repoRelPath,
        repo_type := repoType2, web_url := none }))
  | none =>
    if fail_ok = false then .error (.fetcher plainFailMsg)
    else
      .ok (repoURL.map (fun u =>
        { repo_url := u, tag := repoTag, rel_path := repoRelPath,
          repo_type := repoType, web_url := none }))

/-- Lines 335-358 of git.py, the branch for the explicit git schemes of
`GetSchemeHandlers()`: normalize the scheme, split tag and subdirectory
out of path and fragment, reassemble the repo URL, then probe it.  A
caught `RepoGuessException` leaves the already assigned URL, tag and
relative path in place, as the Python locals do. -/
def guessExplicitScheme (wf : ParseResult) (ls : LsOracle) (http : HttpOracle)
    (fail_ok : Bool) : Except GuessErr (Option RemoteRepo) :=
  let gitScheme := gitSchemeOf wf.scheme
  let gp := gitPathTag wf.path
  let repoRelPath := getSubdirectory wf.fragment
  let repoURL := pyUrlunparse
    { scheme := gitScheme, netloc := wf.netloc, path := gp.1,
      params := [], query := [], fragment := [] }
  match find_git_repo_in_uri_str repoURL ls http with
  | .error .keyError => .error .keyError
  | .error (.repoGuess _) =>
    if fail_ok = false then .error (.fetcher cascadeFailMsg)
    else finishGuess none (some repoURL) gp.2 repoRelPath none fail_ok
  | .ok fp => finishGuess (some fp) (some repoURL) gp.2 repoRelPath none fail_ok

/-- Lines 360-381 of git.py, the branch for the `github` pseudo scheme:
rebuild an https URL from the first two path segments, take the third as
the tag and the rest as the relative path, then probe. -/
def guessGithubScheme (wf : ParseResult) (ls : LsOracle) (http : HttpOracle)
    (fail_ok : Bool) : Except GuessErr (Option RemoteRepo) :=
  let gh_path_split := splitCh '/' wf.path
  let gh_path := joinCh '/' (gh_path_split.take 2)
  let gh_post_path := (gh_path_split.drop 2).map unquotePlus
  let repoTag := gh_post_path.head?
  let repoRelPath :=
    if gh_post_path.length > 1 then some (joinCh '/' (gh_post_path.drop 1)) else none
  let repoURL := pyUrlunparse
    { scheme := strC "https", netloc := githubNetloc, path := gh_path,
      params := [], query := [], fragment := [] }
  match find_git_repo_in_uri_str repoURL ls http with
  | .error .keyError => .error .keyError
  | .error (.repoGuess _) =>
    if fail_ok = false then .error (.fetcher cascadeFailMsg)
    else finishGuess none (some repoURL) repoTag repoRelPath (some .github) fail_ok
  | .ok fp => finishGuess (some fp) (some repoURL) repoTag repoRelPath (some .github) fail_ok

/-- Lines 383-409 of git.py, the branch for the github.com netloc: probe
the parsed URL itself, take the probed repo URL, and segment the
remaining path when it is a blob or tree reference. -/
def guessGithubNetloc (wf : ParseResult) (ls : LsOracle) (http : HttpOracle)
    (fail_ok : Bool) : Except GuessErr (Option RemoteRepo) :=
  match find_git_repo_in_uri wf ls http with
  | .error .keyError => .error .keyError
  | .error (.repoGuess _) =>
    if fail_ok = false then .error (.fetcher cascadeFailMsg)
    else finishGuess none none none none none fail_ok
  | .ok fp =>
    let seg :=
      if fp.post.length > 1 ∧ (fp.post.headD [] = strC "blob" ∨ fp.post.headD [] = strC "tree")
      then segmentBlobTree (fp.post.drop 1) fp.branches
      else (none, none)
    finishGuess (some fp) (some fp.repo.repo_url) seg.1 seg.2 none fail_ok

/-- Lines 410-445 of git.py, the branch for the raw.githubusercontent.com
netloc: when at least owner, repo and one more segment exist, rebuild the
github.com `.git` URL from the first three (percent-decoded) segments,
probe it, and segment the remaining segments; with fewer segments only
the GitHub repo type is recorded (and no repo URL, so the result can only
be a failure or `None`). -/
def guessRawNetloc (wf : ParseResult) (ls : LsOracle) (http : HttpOracle)
    (fail_ok : Bool) : Except GuessErr (Option RemoteRepo) :=
  let wf_path := (splitCh '/' wf.path).map unquotePlus
  if wf_path.length >= 3 then
    let repoGitPath := appendToLast (wf_path.take 3) (strC ".git")
    let repoURL := pyUrlunparse
      { scheme := strC "https", netloc := githubNetloc,
        path := joinCh '/' repoGitPath, params := [], query := [], fragment := [] }
    match find_git_repo_in_uri_str repoURL ls http with
    | .error .keyError => .error .keyError
    | .error (.repoGuess _) =>
      if fail_ok = false then .error (.fetcher cascadeFailMsg)
      else finishGuess none (some repoURL) none none none fail_ok
    | .ok fp =>
      let seg :=
        if wf_path.length >= 4 then segmentRaw (wf_path.drop 3) fp.branches
        else (none, none)
      finishGuess (some fp) (some repoURL) seg.1 seg.2 none fail_ok
  else
    finishGuess none none none none (some .github) fail_ok

/-- Lines 447-448 of git.py, the fallback branch for any other URL: probe
the parsed URL.  No repo URL is ever assigned in this branch, so a
successful probe still yields `None`. -/
def guessGeneric (wf : ParseResult) (ls : LsOracle) (http : HttpOracle)
    (fail_ok : Bool) : Except GuessErr (Option RemoteRepo) :=
  match find_git_repo_in_uri wf ls http with
  | .error .keyError => .error .keyError
  | .error (.repoGuess _) =>
    if fail_ok = false then .error (.fetcher cascadeFailMsg)
    else finishGuess none none none none none fail_ok
  | .ok fp => finishGuess (some fp) none none none none fail_ok

/-- Lines 315-479 of git.py, `guess_git_repo_params` on an already parsed
URL: dispatch in code order over the explicit git schemes, the `github`
pseudo scheme, the github.com netloc, the raw.githubusercontent.com
netloc, and the generic probe.  A `RepoGuessException` from the probe is
caught and re-raised as `FetcherException` unless `fail_ok`; the KeyError
is never caught. -/
def guess_git_repo_params (wf : ParseResult) (ls : LsOracle) (http : HttpOracle)
    (fail_ok : Bool) : Except GuessErr (Option RemoteRepo) :=
  if wf.scheme ∈ gitSchemeHandlers then guessExplicitScheme wf ls http fail_ok
  else if wf.scheme = githubScheme then guessGithubScheme wf ls http fail_ok
  else if wf.netloc = githubNetloc then guessGithubNetloc wf ls http fail_ok
  else if wf.netloc = strC "raw.githubusercontent.com" then guessRawNetloc wf ls http fail_ok
  else guessGeneric wf ls http fail_ok

/-- `guess_git_repo_params` on a URL string (the common entry point: the
code parses the string with `urllib.parse.urlparse` first). -/
def guess_git_repo_params_str (s : Str) (ls : LsOracle) (http : HttpOracle)
    (fail_ok : Bool) : Except GuessErr (Option RemoteRepo) :=
  guess_git_repo_params (pyUrlparse s) ls http fail_ok

deriving instance DecidableEq for Except

/-! ### Concrete collaborator behaviours used by the witnesses and
counterexamples below. -/

/-- An ls-remote collaborator for which no URL is a git repository. -/
def lsFail : LsOracle := fun _ => none

/-- An HTTP collaborator for which every HEAD request fails (the code
swallows the failure and keeps `Raw`). -/
def noHttp : HttpOracle := fun _ => none

/-- ls-remote behaviour: only the WfExS-backend repository URL answers,
with `main` as the default branch. -/
def lsWfexs : LsOracle := fun u =>
  if u = strC "https://github.com/inab/WfExS-backend.git" then
    some [(strC "HEAD", strC "h1"), (strC "refs/heads/main", strC "h1")]
  else none

/-- ls-remote behaviour for the C1 counterexample: both the full path and
the bare host root answer as repositories. -/
def lsC1 : LsOracle := fun u =>
  if u = strC "https://example.org/a/b" ∨ u = strC "https://example.org/" then
    some [(strC "HEAD", strC "h1"), (strC "refs/heads/main", strC "h1")]
  else none

/-- Parsed input for the C1 counterexample. -/
def prC1 : ParseResult :=
  { scheme := strC "https", netloc := strC "example.org", path := strC "/a/b",
    params := [], query := [], fragment := [] }

/-- ls-remote behaviour: only `https://github.com/o/r` answers, with
branches `main` (the default) and `feature/x`, in that listing order. -/
def lsOR : LsOracle := fun u =>
  if u = strC "https://github.com/o/r" then
    some [(strC "HEAD", strC "h1"), (strC "refs/heads/main", strC "h1"),
          (strC "refs/heads/feature/x", strC "h2")]
  else none

/-- ls-remote behaviour: only `https://h/p.git` answers. -/
def lsC5 : LsOracle := fun u =>
  if u = strC "https://h/p.git" then
    some [(strC "HEAD", strC "h1"), (strC "refs/heads/main", strC "h1")]
  else none

/-- ls-remote behaviour: only the full ssh URL answers. -/
def lsSshOk : LsOracle := fun u =>
  if u = strC "ssh://git@github.com:inab/WfExS-backend.git" then
    some [(strC "HEAD", strC "h1"), (strC "refs/heads/main", strC "h1")]
  else none

/-- Parsed input for the C7 counterexample: a generic host. -/
def prC7 : ParseResult :=
  { scheme := strC "https", netloc := strC "example.org", path := strC "/r",
    params := [], query := [], fragment := [] }

/-- ls-remote behaviour for C7: `https://example.org/r` answers, but its
HEAD pointer matches no refs/heads entry (the listing has no branch). -/
def lsC7 : LsOracle := fun u =>
  if u = strC "https://example.org/r" then some [(strC "HEAD", strC "h1")] else none

/-- Parsed input for the C8 counterexample: a github.com web URL carrying a
fragment. -/
def prC8 : ParseResult :=
  { scheme := strC "https", netloc := strC "github.com", path := strC "/o/r",
    params := [], query := [], fragment := strC "frag" }

/-- ls-remote behaviour for C8: the candidate root URL (which retains the
fragment, since `_replace` only replaces the path) answers. -/
def lsC8 : LsOracle := fun u =>
  if u = strC "https://github.com/o/r#frag" then
    some [(strC "HEAD", strC "h1"), (strC "refs/heads/main", strC "h1")]
  else none

/-- Parsed input for the C10 witness: a generic host. -/
def prC10 : ParseResult :=
  { scheme := strC "https", netloc := strC "example.org", path := strC "/norepo",
    params := [], query := [], fragment := [] }

/-- ls-remote behaviour for C10: the candidate answers with a listing that
has no HEAD entry at all. -/
def lsC10 : LsOracle := fun u =>
  if u = strC "https://example.org/norepo" then
    some [(strC "refs/heads/main", strC "h1")]
  else none

/-- Ordinary URL characters used to state the round-trip property of C5:
ASCII digits, ASCII letters, hyphen, underscore and dot. -/
def plainChar (c : Char) : Bool :=
  decide ((48 ≤ c.toNat ∧ c.toNat ≤ 57) ∨ (65 ≤ c.toNat ∧ c.toNat ≤ 90) ∨
    (97 ≤ c.toNat ∧ c.toNat ≤ 122) ∨ c.toNat = 45 ∨ c.toNat = 95 ∨ c.toNat = 46)

/-- Ordinary URL path characters: plain characters and the slash. -/
def pathChar (c : Char) : Bool := plainChar c || decide (c.toNat = 47)

/-- The URL string `scheme://host/path.git@TAG#subdirectory=SUB` of the
round-trip property of C5. -/
def assembledUrl (scheme host path tag sub : Str) : Str :=
  scheme ++ strC "://" ++ host ++ strC "/" ++ path ++ strC ".git@" ++ tag ++
    strC "#subdirectory=" ++ sub

/-! ### Claim theorems: counterexamples and code evaluations. -/

/-- Claim C1, counterexample.  The probe loop does not stop at the first
prefix whose remote-refs listing succeeds: with a listing that succeeds
both at `/a/b` (the first prefix probed) and at `/` (the last), the claim
predicts `repo_url = "https://example.org/a/b"` with no remaining
segments, but the code returns the last (shortest) successful prefix
`"https://example.org/"` with remaining segments `["a", "b"]`. -/
theorem C1_counterexample :
    (lsC1 (strC "https://example.org/a/b")).isSome = true ∧
    find_git_repo_in_uri prC1 lsC1 noHttp =
      .ok { repo := { repo_url := strC "https://example.org/",
                      tag := some (strC "main"), rel_path := none,
                      repo_type := some .raw, web_url := none },
            post := [strC "a", strC "b"], branches := [strC "main"] } ∧
    strC "https://example.org/" ≠ strC "https://example.org/a/b" := by
  refine ⟨rfl, rfl, ?_⟩
  decide

/-- Claim C2: code bug.  For the explicitly git-addressed URL
`git+https://github.com/inab/WfExS-backend.git` (whose path contains
`.git`), the result is not a pure function of the URL string: the explicit
scheme branch calls `find_git_repo_in_uri`, so two runs whose remote-refs
collaborator answers differently return different results.  With an
answering remote the tag is the probed default branch and the repo type is
the probed type (not Git); with a non-answering remote the call raises
`FetcherException`.  The test suite expects
`RemoteRepo(repo_url=..., repo_type=Git)` with no tag for this URL. -/
theorem C2_network_dependence :
    guess_git_repo_params_str (strC "git+https://github.com/inab/WfExS-backend.git")
        lsWfexs noHttp false =
      .ok (some { repo_url := strC "https://github.com/inab/WfExS-backend.git",
                  tag := some (strC "main"), rel_path := none,
                  repo_type := some .raw, web_url := none }) ∧
    guess_git_repo_params_str (strC "git+https://github.com/inab/WfExS-backend.git")
        lsFail noHttp false =
      .error (.fetcher cascadeFailMsg) := by
  exact ⟨by decide, rfl⟩

/-- Claim C3: code bug.  A URL without a scheme, and a URL with a scheme
but no `.git` in its path and no known host, are both dispatched to the
generic probe; when the probe finds nothing, the default
`fail_ok = False` turns the caught `RepoGuessException` into a raised
`FetcherException` instead of the soft `None` that the claim (and the test
for `"github.com/inab/WfExS-backend.git"`) expects. -/
theorem C3_raises_on_unrecognized :
    guess_git_repo_params_str (strC "github.com/inab/WfExS-backend.git")
        lsFail noHttp false = .error (.fetcher cascadeFailMsg) ∧
    guess_git_repo_params_str (strC "https://example.org/some/path")
        lsFail noHttp false = .error (.fetcher cascadeFailMsg) := by
  exact ⟨rfl, rfl⟩

/-- Claim C4: code bug (in its single-segment fallback case).  With known
branches `["main", "feature/x"]`: the claimed example
`/o/r/blob/feature/x/file.txt` does give tag `feature/x` and rel_path
`file.txt` (first matching branch wins), but for `/o/r/blob/v1`, where no
branch matches and only one segment exists, the blob/tree fallback
produces `rel_path = ""` (the join of the empty remainder, guarded by the
always-true `len(wf_path_tag) > 0` of line 408) instead of the null the
claim states and the sister raw.githubusercontent.com branch (line 442)
produces. -/
theorem C4_tag_segmentation :
    guess_git_repo_params_str (strC "https://github.com/o/r/blob/feature/x/file.txt")
        lsOR noHttp false =
      .ok (some { repo_url := strC "https://github.com/o/r",
                  tag := some (strC "feature/x"),
                  rel_path := some (strC "file.txt"),
                  repo_type := some .raw, web_url := none }) ∧
    guess_git_repo_params_str (strC "https://github.com/o/r/blob/v1")
        lsOR noHttp false =
      .ok (some { repo_url := strC "https://github.com/o/r",
                  tag := some (strC "v1"),
                  rel_path := some [],
                  repo_type := some .raw, web_url := none }) := by
  exact ⟨rfl, rfl⟩

/-- Claim C5, counterexample.  For the accepted scheme `git+https`, the
URL `git+https://h/p.git@t#subdirectory=s` does not resolve to
`repo_url = "git+https://h/p.git"`: the code strips the `git+` marker when
reassembling, so the repo URL is `"https://h/p.git"` (tag and rel_path are
extracted as the claim states). -/
theorem C5_counterexample :
    guess_git_repo_params_str (strC "git+https://h/p.git@t#subdirectory=s")
        lsC5 noHttp false =
      .ok (some { repo_url := strC "https://h/p.git", tag := some (strC "t"),
                  rel_path := some (strC "s"), repo_type := some .raw,
                  web_url := none }) ∧
    guess_git_repo_params_str (strC "git+https://h/p.git@t#subdirectory=s")
        lsC5 noHttp false ≠
      .ok (some { repo_url := strC "git+https://h/p.git", tag := some (strC "t"),
                  rel_path := some (strC "s"), repo_type := some .raw,
                  web_url := none }) := by
  refine ⟨rfl, ?_⟩
  decide

/-- Claim C6: code bug.  The scheme `ssh` is not among
`GetSchemeHandlers()` (`git`, `git+https`, `git+http`), so
`ssh://git@github.com:inab/WfExS-backend.git` is dispatched to the
generic probe; no branch of the code concatenates netloc and path or
assigns `RepoType.Git`.  When the probe fails the call raises
`FetcherException`; even when the full ssh URL answers the listing the
result is `None` (the generic branch never sets `repoURL`) — never the
`RemoteRepo("git@github.com:inab/WfExS-backend.git", repo_type=Git)`
stated by the claim and its test; the `git+ssh` variant behaves the
same. -/
theorem C6_ssh_not_handled :
    guess_git_repo_params_str (strC "ssh://git@github.com:inab/WfExS-backend.git")
        lsFail noHttp false = .error (.fetcher cascadeFailMsg) ∧
    guess_git_repo_params_str (strC "ssh://git@github.com:inab/WfExS-backend.git")
        lsSshOk noHttp false = .ok none ∧
    guess_git_repo_params_str (strC "git+ssh://git@github.com:inab/WfExS-backend.git")
        lsFail noHttp false = .error (.fetcher cascadeFailMsg) := by
  exact ⟨rfl, rfl, rfl⟩

/-- Claim C7, counterexample.  A probed repository whose HEAD resolves to
no refs/heads entry does make `find_git_repo_in_uri` fail with the
distinct no-tag message, but the failure is not always surfaced: the
handler of `guess_git_repo_params` catches it like any
`RepoGuessException`, and with `fail_ok = True` the call returns `None`
instead. -/
theorem C7_counterexample :
    find_git_repo_in_uri prC7 lsC7 noHttp = .error (.repoGuess noTagMsg) ∧
    guess_git_repo_params prC7 lsC7 noHttp true = .ok none := by
  exact ⟨rfl, rfl⟩

/-- Claim C8, counterexample.  A RemoteRepo produced by the github.com
branch can retain the fragment of the input URL inside `repo_url`: the
candidate root URL is built with `_replace(path=...)`, which keeps the
fragment, so the input with path `/o/r` and fragment `frag` yields
`repo_url = "https://github.com/o/r#frag"`. -/
theorem C8_counterexample :
    guess_git_repo_params prC8 lsC8 noHttp false =
      .ok (some { repo_url := strC "https://github.com/o/r#frag",
                  tag := some (strC "main"), rel_path := none,
                  repo_type := some .raw, web_url := none }) ∧
    '#' ∈ strC "https://github.com/o/r#frag" := by
  refine ⟨rfl, ?_⟩
  decide

/-! ### Helper lemmas about the splitting primitives and the probe loop. -/

theorem splitOnceCh_append (sep : Char) (a b : Str) (h : ∀ x ∈ a, x ≠ sep) :
    splitOnceCh sep (a ++ sep :: b) = some (a, b) := by
  induction a with
  | nil => simp [splitOnceCh]
  | cons c cs ih =>
    have hc : c ≠ sep := h c (by simp)
    simp [splitOnceCh, hc, ih (fun y hy => h y (by simp [hy]))]

theorem splitOnceCh_not_mem (sep : Char) (s : Str) (h : ∀ x ∈ s, x ≠ sep) :
    splitOnceCh sep s = none := by
  induction s with
  | nil => rfl
  | cons c cs ih =>
    have hc : c ≠ sep := h c (by simp)
    simp [splitOnceCh, hc, ih (fun y hy => h y (by simp [hy]))]

theorem splitOnceCh_fst_mem (sep : Char) : ∀ (s a b : Str),
    splitOnceCh sep s = some (a, b) → ∀ x ∈ a, x ≠ sep ∧ x ∈ s
  | [], a, b, h => by simp [splitOnceCh] at h
  | c :: cs, a, b, h => by
    rw [splitOnceCh] at h
    split at h
    · rename_i hc
      rw [Option.some.injEq, Prod.mk.injEq] at h
      obtain ⟨ha, hb⟩ := h
      subst ha
      simp
    · rename_i hc
      rcases hm : splitOnceCh sep cs with _ | p
      · rw [hm] at h
        simp at h
      · rw [hm] at h
        simp only [Option.map_some', Option.some.injEq, Prod.mk.injEq] at h
        obtain ⟨ha, hb⟩ := h
        subst ha
        intro x hx
        rcases List.mem_cons.mp hx with rfl | hx2
        · exact ⟨hc, by simp⟩
        · have := splitOnceCh_fst_mem sep cs p.1 p.2 hm x hx2
          exact ⟨this.1, by simp [this.2]⟩

theorem splitCh_ne_nil (sep : Char) (s : Str) : splitCh sep s ≠ [] := by
  cases s with
  | nil => simp [splitCh]
  | cons c rest =>
    rw [splitCh]
    split
    · simp
    · split <;> simp

theorem posList_succ (n : Nat) : posList (n + 1) = (n + 1) :: posList n := by
  simp [posList, List.range_succ]

theorem posList_mem (n q : Nat) : q ∈ posList n ↔ 1 ≤ q ∧ q ≤ n := by
  simp only [posList, List.mem_map, List.mem_reverse, List.mem_range]
  constructor
  · rintro ⟨m, hm, rfl⟩
    omega
  · rintro ⟨h1, h2⟩
    exact ⟨q - 1, by omega, by omega⟩

theorem probeLoop_allNone (wf : ParseResult) (sp : List Str) (ls : LsOracle)
    (http : HttpOracle) (hls : ∀ u, ls u = none) :
    ∀ (ps : List Nat) (st : ProbeState), probeLoop wf sp ls http ps st = .ok st
  | [], _ => rfl
  | pos :: rest, st => by
    rw [probeLoop, hls]
    exact probeLoop_allNone wf sp ls http hls rest st

theorem find_allNone (wf : ParseResult) (ls : LsOracle) (http : HttpOracle)
    (hls : ∀ u, ls u = none) :
    find_git_repo_in_uri wf ls http = .error (.repoGuess unableMsg) := by
  simp only [find_git_repo_in_uri, probeLoop_allNone wf _ ls http hls]

theorem splitOnceCh_none_not_mem (sep : Char) (s : Str) (h : splitOnceCh sep s = none) :
    sep ∉ s := by
  induction s with
  | nil => simp
  | cons c cs ih =>
    rw [splitOnceCh] at h
    split at h
    · simp at h
    · rename_i hc
      rcases hm : splitOnceCh sep cs with _ | p
      · intro hmem
        rcases List.mem_cons.mp hmem with rfl | h2
        · exact hc rfl
        · exact ih hm h2
      · rw [hm] at h
        simp at h

theorem gitPathTag_fst (path : Str) :
    '@' ∉ (gitPathTag path).1 ∧ ∀ x ∈ (gitPathTag path).1, x ∈ path := by
  rw [gitPathTag]
  rcases hsp : splitOnceCh '@' path with _ | p
  · exact ⟨splitOnceCh_none_not_mem '@' path hsp, fun x hx => hx⟩
  · constructor
    · intro hmem
      exact ((splitOnceCh_fst_mem '@' path p.1 p.2 (by rw [hsp])) '@' hmem).1 rfl
    · exact fun x hx => ((splitOnceCh_fst_mem '@' path p.1 p.2 (by rw [hsp])) x hx).2

theorem gitSchemeOf_handlers (scheme : Str) (hs : scheme ∈ gitSchemeHandlers) :
    gitSchemeOf scheme = strC "git" ∨ gitSchemeOf scheme = strC "https" ∨
      gitSchemeOf scheme = strC "http" := by
  simp only [gitSchemeHandlers, List.mem_cons, List.not_mem_nil, or_false] at hs
  rcases hs with rfl | rfl | rfl
  · exact Or.inl (by decide)
  · exact Or.inr (Or.inl (by decide))
  · exact Or.inr (Or.inr (by decide))

theorem mem_pyUrlunparse_basic (c : Char) (scheme netloc url : Str)
    (hc : c ∈ pyUrlunparse
      { scheme := scheme, netloc := netloc, path := url, params := [],
        query := [], fragment := [] }) :
    c ∈ scheme ∨ c ∈ netloc ∨ c ∈ url ∨ c = ':' ∨ c = '/' := by
  by_cases hB : url ≠ [] ∧ url.take 1 ≠ strC "/"
  · simp only [pyUrlunparse, pyUrlunsplit, if_pos hB] at hc
    repeat' split at hc
    all_goals try simp only [strC, String.data, List.mem_append, List.mem_cons,
      List.not_mem_nil, or_false] at hc
    all_goals tauto
  · simp only [pyUrlunparse, pyUrlunsplit, if_neg hB] at hc
    repeat' split at hc
    all_goals try simp only [strC, String.data, List.mem_append, List.mem_cons,
      List.not_mem_nil, or_false] at hc
    all_goals tauto

/-! ### Claims C7 (amended), C8 (amended), C9 and C10. -/

/-- Claim C7, amended.  The no-tag failure is a distinct
`RepoGuessException`, but it is surfaced only when `fail_ok` is false
(wrapped into `FetcherException`); when `fail_ok` is true the handler of
`guess_git_repo_params` swallows it like any other `RepoGuessException`,
and the generic branch then returns `None`. -/
theorem C7_amended (wf : ParseResult) (ls : LsOracle) (http : HttpOracle)
    (h1 : wf.scheme ∉ gitSchemeHandlers) (h2 : wf.scheme ≠ githubScheme)
    (h3 : wf.netloc ≠ githubNetloc) (h4 : wf.netloc ≠ strC "raw.githubusercontent.com")
    (hfind : find_git_repo_in_uri wf ls http = .error (.repoGuess noTagMsg)) :
    guess_git_repo_params wf ls http false = .error (.fetcher cascadeFailMsg) ∧
    guess_git_repo_params wf ls http true = .ok none := by
  constructor <;>
  · rw [guess_git_repo_params, if_neg h1, if_neg h2, if_neg h3, if_neg h4]
    simp only [guessGeneric, hfind, finishGuess]
    rfl

/-- Witness for C7_amended at the concrete input of the counterexample. -/
theorem C7_amended_witness :
    guess_git_repo_params prC7 lsC7 noHttp false = .error (.fetcher cascadeFailMsg) ∧
    guess_git_repo_params prC7 lsC7 noHttp true = .ok none :=
  C7_amended prC7 lsC7 noHttp (by decide) (by decide) (by decide) (by decide) (by decide)

/-- Claim C8, amended.  The invariant holds on the explicit-scheme branch:
whatever the collaborators answer, a returned RemoteRepo has a `repo_url`
free of `@` (the path is cut at its first `@`, which becomes the tag) and
free of `#` (the fragment never enters the rebuilt URL; a `subdirectory`
key inside it becomes `rel_path`), provided netloc and path are fragment
free and netloc carries no user info.  In the probe-based branches the
invariant fails: the fragment and any `@` of the input URL are kept
verbatim inside `repo_url` (see the counterexample). -/
theorem C8_amended (wf : ParseResult) (ls : LsOracle) (http : HttpOracle) (fail_ok : Bool)
    (r : RemoteRepo)
    (hs : wf.scheme ∈ gitSchemeHandlers)
    (hn1 : '#' ∉ wf.netloc) (hn2 : '@' ∉ wf.netloc) (hp : '#' ∉ wf.path)
    (hok : guess_git_repo_params wf ls http fail_ok = .ok (some r)) :
    '@' ∉ r.repo_url ∧ '#' ∉ r.repo_url := by
  rw [guess_git_repo_params, if_pos hs] at hok
  have hurl : r.repo_url = pyUrlunparse
      { scheme := gitSchemeOf wf.scheme, netloc := wf.netloc,
        path := (gitPathTag wf.path).1, params := [], query := [], fragment := [] } := by
    simp only [guessExplicitScheme] at hok
    split at hok
    · exact absurd hok (by simp)
    · split at hok
      · exact absurd hok (by simp)
      · rename_i hfo
        simp only [finishGuess, if_neg hfo, Option.map_some'] at hok
        simp only [Except.ok.injEq, Option.some.injEq] at hok
        rw [← hok]
    · simp only [finishGuess, Option.map_some'] at hok
      simp only [Except.ok.injEq, Option.some.injEq] at hok
      rw [← hok]
  constructor
  · intro hmem
    rw [hurl] at hmem
    rcases mem_pyUrlunparse_basic '@' _ _ _ hmem with h | h | h | h | h
    · rcases gitSchemeOf_handlers wf.scheme hs with he | he | he <;> rw [he] at h <;>
        revert h <;> decide
    · exact hn2 h
    · exact (gitPathTag_fst wf.path).1 h
    · exact absurd h (by decide)
    · exact absurd h (by decide)
  · intro hmem
    rw [hurl] at hmem
    rcases mem_pyUrlunparse_basic '#' _ _ _ hmem with h | h | h | h | h
    · rcases gitSchemeOf_handlers wf.scheme hs with he | he | he <;> rw [he] at h <;>
        revert h <;> decide
    · exact hn1 h
    · exact hp ((gitPathTag_fst wf.path).2 '#' h)
    · exact absurd h (by decide)
    · exact absurd h (by decide)

/-- Witness for C8_amended on a concrete explicit-scheme resolution. -/
theorem C8_amended_witness :
    '@' ∉ strC "git://h/p.git" ∧ '#' ∉ strC "git://h/p.git" :=
  C8_amended
    { scheme := strC "git", netloc := strC "h", path := strC "/p.git@t",
      params := [], query := [], fragment := [] }
    lsFail noHttp true
    { repo_url := strC "git://h/p.git", tag := some (strC "t"),
      rel_path := none, repo_type := none, web_url := none }
    (by decide) (by decide) (by decide) (by decide) (by decide)

/-- Claim C9, confirmed.  On an explicit-git-scheme URL whose probe finds
no repository at any prefix, with `fail_ok` true the function does not
return `None`: the repo URL, tag and relative path assigned before the
probe call survive the caught exception, and the result is a RemoteRepo
with the reassembled URL, the text after the first `@` of the path as tag
(or no tag), and no repo type at all. -/
theorem C9_probe_exhausted_failopen (wf : ParseResult) (ls : LsOracle) (http : HttpOracle)
    (hs : wf.scheme ∈ gitSchemeHandlers) (hls : ∀ u, ls u = none) :
    guess_git_repo_params wf ls http true =
      .ok (some { repo_url := pyUrlunparse
                    { scheme := gitSchemeOf wf.scheme, netloc := wf.netloc,
                      path := (gitPathTag wf.path).1, params := [], query := [],
                      fragment := [] },
                  tag := (gitPathTag wf.path).2,
                  rel_path := getSubdirectory wf.fragment,
                  repo_type := none, web_url := none }) := by
  have hfind : ∀ s : Str, find_git_repo_in_uri_str s ls http = .error (.repoGuess unableMsg) :=
    fun s => find_allNone (pyUrlparse s) ls http hls
  rw [guess_git_repo_params, if_pos hs]
  simp only [guessExplicitScheme, hfind, finishGuess]
  rfl

/-- Witness for C9 on `git://h/p.git@t#subdirectory=s` with a probe that
never answers. -/
theorem C9_probe_exhausted_failopen_witness :
    guess_git_repo_params
        { scheme := strC "git", netloc := strC "h", path := strC "/p.git@t",
          params := [], query := [], fragment := strC "subdirectory=s" }
        lsFail noHttp true =
      .ok (some { repo_url := strC "git://h/p.git", tag := some (strC "t"),
                  rel_path := some (strC "s"), repo_type := none, web_url := none }) :=
  C9_probe_exhausted_failopen _ lsFail noHttp (by decide) (fun _ => rfl)

/-- Claim C10, confirmed.  When the first probed candidate (the full path)
answers the listing but the mapping has no HEAD entry, the lookup
`remote_refs_dict[HEAD_LABEL]` raises an unguarded KeyError, not a
`RepoGuessException`, and `guess_git_repo_params` propagates it whatever
the value of `fail_ok` is. -/
theorem C10_missing_head_keyerror (wf : ParseResult) (ls : LsOracle) (http : HttpOracle)
    (refs : RefsDict)
    (h1 : wf.scheme ∉ gitSchemeHandlers) (h2 : wf.scheme ≠ githubScheme)
    (h3 : wf.netloc ≠ githubNetloc) (h4 : wf.netloc ≠ strC "raw.githubusercontent.com")
    (hls : ls (probeUri wf (splitCh '/' wf.path) (splitCh '/' wf.path).length) = some refs)
    (hhead : lookupDict refs headLabel = none) :
    find_git_repo_in_uri wf ls http = .error .keyError ∧
    ∀ fail_ok, guess_git_repo_params wf ls http fail_ok = .error .keyError := by
  have hfind : find_git_repo_in_uri wf ls http = .error .keyError := by
    rcases hsp : splitCh '/' wf.path with _ | ⟨a, l⟩
    · exact absurd hsp (splitCh_ne_nil '/' wf.path)
    · rw [hsp] at hls
      simp only [List.length_cons] at hls
      simp only [find_git_repo_in_uri, hsp, List.length_cons, posList_succ, probeLoop,
        hls, hhead]
  refine ⟨hfind, fun fail_ok => ?_⟩
  rw [guess_git_repo_params, if_neg h1, if_neg h2, if_neg h3, if_neg h4]
  simp only [guessGeneric, hfind]

/-- Witness for C10 on a generic host whose listing has refs but no
HEAD. -/
theorem C10_missing_head_keyerror_witness :
    find_git_repo_in_uri prC10 lsC10 noHttp = .error .keyError ∧
    guess_git_repo_params prC10 lsC10 noHttp false = .error .keyError ∧
    guess_git_repo_params prC10 lsC10 noHttp true = .error .keyError := by
  have h := C10_missing_head_keyerror prC10 lsC10 noHttp
    [(strC "refs/heads/main", strC "h1")]
    (by decide) (by decide) (by decide) (by decide) (by decide) (by decide)
  exact ⟨h.1, h.2 false, h.2 true⟩

theorem posList_sorted (n : Nat) : (posList n).Pairwise (· > ·) := by
  induction n with
  | zero => simp [posList]
  | succ m ih =>
    rw [posList_succ]
    refine List.Pairwise.cons ?_ ih
    intro q hq
    have := (posList_mem m q).mp hq
    omega

/-- Invariant of the probe loop: either no probed position answered and
the relevant state fields are unchanged, or some answering position
determined the final remote URI and post path, and every smaller probed
position (probed later, the list being strictly decreasing) did not
answer. -/
theorem probeLoop_spec (wf : ParseResult) (sp : List Str) (ls : LsOracle)
    (http : HttpOracle) :
    ∀ (ps : List Nat) (st st' : ProbeState),
      ps.Pairwise (· > ·) →
      probeLoop wf sp ls http ps st = .ok st' →
      ((∀ q ∈ ps, (ls (probeUri wf sp q)).isSome = false) ∧
        st'.repo_type = st.repo_type ∧ st'.the_remote_uri = st.the_remote_uri ∧
        st'.longest_post_path = st.longest_post_path)
      ∨ (∃ pos, pos ∈ ps ∧ (ls (probeUri wf sp pos)).isSome = true ∧
          st'.the_remote_uri = some (probeUri wf sp pos) ∧
          st'.longest_post_path = some (sp.drop pos) ∧
          ∀ q ∈ ps, q < pos → (ls (probeUri wf sp q)).isSome = false) := by
  intro ps
  induction ps with
  | nil =>
    intro st st' _ hrun
    rw [probeLoop] at hrun
    injection hrun with hst
    subst hst
    exact Or.inl ⟨by simp, rfl, rfl, rfl⟩
  | cons pos rest ih =>
    intro st st' hsort hrun
    simp only [probeLoop] at hrun
    rcases hls : ls (probeUri wf sp pos) with _ | refs
    · simp only [hls] at hrun
      rcases ih st st' hsort.of_cons hrun with ⟨hnone, h1, h2, h3⟩ | ⟨p, hmem, hhit, h1, h2, hmin⟩
      · left
        refine ⟨?_, h1, h2, h3⟩
        intro q hq
        rcases List.mem_cons.mp hq with rfl | hq2
        · simp [hls]
        · exact hnone q hq2
      · right
        refine ⟨p, List.mem_cons_of_mem _ hmem, hhit, h1, h2, ?_⟩
        intro q hq hlt
        rcases List.mem_cons.mp hq with rfl | hq2
        · simp [hls]
        · exact hmin q hq2 hlt
    · simp only [hls] at hrun
      rcases hhd : lookupDict refs headLabel with _ | headRef
      · simp only [hhd] at hrun
        simp at hrun
      · simp only [hhd] at hrun
        rcases ih _ st' hsort.of_cons hrun with ⟨hnone, h1, h2, h3⟩ | ⟨p, hmem, hhit, h1, h2, hmin⟩
        · right
          refine ⟨pos, List.mem_cons_self _ _, by simp [hls], ?_, ?_, ?_⟩
          · rw [h2]
          · rw [h3]
          · intro q hq hlt
            rcases List.mem_cons.mp hq with hq1 | hq2
            · exact absurd hlt (by omega)
            · exact hnone q hq2
        · right
          refine ⟨p, List.mem_cons_of_mem _ hmem, hhit, h1, h2, ?_⟩
          intro q hq hlt
          rcases List.mem_cons.mp hq with hq1 | hq2
          · exfalso
            have hgt : pos > p := (List.pairwise_cons.mp hsort).1 p hmem
            omega
          · exact hmin q hq2 hlt

/-- Claim C1, amended.  Every successful result of `find_git_repo_in_uri`
comes from one of the probed positions: its `repo_url` is the candidate
URL of some position pos (with the remaining segments those after pos),
the listing succeeded there, and every smaller position — that is, every
strictly shorter prefix, probed later in the n-down-to-1 order — failed
the listing.  So the shortest successful prefix wins, not the first
(longest) one as the claim stated. -/
theorem C1_amended (wf : ParseResult) (ls : LsOracle) (http : HttpOracle) (r : FindResult)
    (h : find_git_repo_in_uri wf ls http = .ok r) :
    ∃ pos, pos ∈ posList (splitCh '/' wf.path).length ∧
      (ls (probeUri wf (splitCh '/' wf.path) pos)).isSome = true ∧
      r.repo.repo_url = probeUri wf (splitCh '/' wf.path) pos ∧
      r.post = (splitCh '/' wf.path).drop pos ∧
      ∀ q ∈ posList (splitCh '/' wf.path).length, q < pos →
        (ls (probeUri wf (splitCh '/' wf.path) q)).isSome = false := by
  simp only [find_git_repo_in_uri] at h
  rcases hrun : probeLoop wf (splitCh '/' wf.path) ls http
      (posList (splitCh '/' wf.path).length) {} with e | st
  · simp only [hrun] at h
    exact absurd h (by simp)
  · simp only [hrun] at h
    rcases hrt : st.repo_type with _ | rt
    · simp only [hrt] at h
      exact absurd h (by simp)
    · simp only [hrt] at h
      rcases hbd : st.b_default_repo_tag with _ | bd
      · simp only [hbd] at h
        exact absurd h (by simp)
      · simp only [hbd] at h
        rcases probeLoop_spec wf (splitCh '/' wf.path) ls http _ {} st
            (posList_sorted _) hrun with ⟨hnone, h1, h2, h3⟩ | ⟨pos, hmem, hhit, h1, h2, hmin⟩
        · rw [hrt] at h1
          simp at h1
        · refine ⟨pos, hmem, hhit, ?_, ?_, hmin⟩
          · injection h with h'
            subst h'
            simp [h1]
          · injection h with h'
            subst h'
            simp [h2]

/-- Witness for C1_amended at the counterexample input, where the chosen
position is the last probed one. -/
theorem C1_amended_witness :
    ∃ pos, pos ∈ posList (splitCh '/' prC1.path).length ∧
      (lsC1 (probeUri prC1 (splitCh '/' prC1.path) pos)).isSome = true ∧
      strC "https://example.org/" = probeUri prC1 (splitCh '/' prC1.path) pos ∧
      [strC "a", strC "b"] = (splitCh '/' prC1.path).drop pos ∧
      ∀ q ∈ posList (splitCh '/' prC1.path).length, q < pos →
        (lsC1 (probeUri prC1 (splitCh '/' prC1.path) q)).isSome = false :=
  C1_amended prC1 lsC1 noHttp
    { repo := { repo_url := strC "https://example.org/", tag := some (strC "main"),
                rel_path := none, repo_type := some .raw, web_url := none },
      post := [strC "a", strC "b"], branches := [strC "main"] }
    (by decide)

theorem plainChar_pathChar (c : Char) (h : plainChar c = true) : pathChar c = true := by
  simp [pathChar, h]

theorem pathChar_ne (c d : Char) (h : pathChar c = true) (hd : pathChar d = false) :
    c ≠ d := by
  intro he
  rw [he, hd] at h
  cases h

theorem pathChar_not_c0 (c : Char) (h : pathChar c = true) : isC0OrSpace c = false := by
  simp only [pathChar, plainChar, Bool.or_eq_true, decide_eq_true_eq] at h
  simp only [isC0OrSpace, decide_eq_false_iff_not]
  omega

theorem pathChar_not_unsafe (c : Char) (h : pathChar c = true) :
    (c == '\t' || c == '\r' || c == '\n') = false := by
  have h1 : c ≠ '\t' := pathChar_ne c '\t' h (by decide)
  have h2 : c ≠ '\r' := pathChar_ne c '\r' h (by decide)
  have h3 : c ≠ '\n' := pathChar_ne c '\n' h (by decide)
  simp [h1, h2, h3]

theorem dropWhile_eq_self_of (p : Char → Bool) (s : Str) (h : ∀ c ∈ s, p c = false) :
    s.dropWhile p = s := by
  cases s with
  | nil => rfl
  | cons c cs => simp [List.dropWhile, h c (by simp)]

theorem filter_eq_self_of (p : Char → Bool) (s : Str) (h : ∀ c ∈ s, p c = true) :
    s.filter p = s := by
  induction s with
  | nil => rfl
  | cons c cs ih =>
    rw [List.filter_cons, if_pos (h c (by simp))]
    rw [ih (fun x hx => h x (by simp [hx]))]

theorem preprocessUrl_id (u : Str)
    (h : ∀ c ∈ u, isC0OrSpace c = false ∧ (c == '\t' || c == '\r' || c == '\n') = false) :
    preprocessUrl u = u := by
  simp only [preprocessUrl]
  rw [dropWhile_eq_self_of _ _ (fun c hc => (h c hc).1)]
  rw [dropWhile_eq_self_of _ _ (fun c hc => (h c (List.mem_reverse.mp hc)).1)]
  rw [List.reverse_reverse]
  exact filter_eq_self_of _ _ (fun c hc => by simp [(h c hc).2])

theorem takeWhile_append_of (p : Char → Bool) (a : Str) (c : Char) (b : Str)
    (ha : ∀ x ∈ a, p x = true) (hc : p c = false) :
    (a ++ c :: b).takeWhile p = a := by
  induction a with
  | nil => simp [List.takeWhile, hc]
  | cons x xs ih =>
    simp only [List.cons_append, List.takeWhile, ha x (by simp), List.append_eq]
    rw [ih (fun y hy => ha y (by simp [hy]))]

theorem dropWhile_append_of (p : Char → Bool) (a : Str) (c : Char) (b : Str)
    (ha : ∀ x ∈ a, p x = true) (hc : p c = false) :
    (a ++ c :: b).dropWhile p = c :: b := by
  induction a with
  | nil => simp [List.dropWhile, hc]
  | cons x xs ih =>
    simp only [List.cons_append, List.dropWhile, ha x (by simp), List.append_eq]
    exact ih (fun y hy => ha y (by simp [hy]))

theorem splitCh_single (sep : Char) (s : Str) (h : ∀ x ∈ s, x ≠ sep) :
    splitCh sep s = [s] := by
  induction s with
  | nil => rfl
  | cons c cs ih =>
    rw [splitCh, if_neg (h c (by simp))]
    rw [ih (fun y hy => h y (by simp [hy]))]

theorem pctDecode_id : ∀ (s : Str), (∀ c ∈ s, c ≠ '%') → pctDecode s = s
  | [], _ => rfl
  | [c], _ => rfl
  | [c, d], _ => rfl
  | c :: a :: b :: rest, h => by
    rw [pctDecode, if_neg (h c (by simp))]
    exact congrArg (c :: ·) (pctDecode_id (a :: b :: rest) (fun x hx => h x (by simp [List.mem_cons] at hx ⊢; tauto)))

theorem unquotePlus_id (s : Str) (h : ∀ c ∈ s, c ≠ '+' ∧ c ≠ '%') :
    unquotePlus s = s := by
  unfold unquotePlus
  have hmap : s.map (fun c => if c = '+' then ' ' else c) = s := by
    induction s with
    | nil => rfl
    | cons c cs ih =>
      simp only [List.map_cons, if_neg (h c (by simp)).1]
      rw [ih (fun x hx => h x (by simp [hx]))]
  rw [hmap]
  exact pctDecode_id s (fun c hc => (h c hc).2)

theorem cleanA (c : Char) (h : pathChar c = true) :
    isC0OrSpace c = false ∧ (c == '\t' || c == '\r' || c == '\n') = false :=
  ⟨pathChar_not_c0 c h, pathChar_not_unsafe c h⟩

set_option maxHeartbeats 1000000 in
/-- CPython urlsplit of the assembled round-trip URL: the scheme is
validated and kept, the host becomes the netloc, the path keeps the
`.git@TAG` suffix, and the fragment holds `subdirectory=SUB`. -/
theorem split_assembled (scheme host path tag sub : Str)
    (hs1 : scheme ≠ [])
    (hs2 : (scheme.headD ' ').isAlpha = true)
    (hs3 : scheme.all schemeChar = true)
    (hs4 : scheme.map Char.toLower = scheme)
    (hs5 : ∀ c ∈ scheme, isC0OrSpace c = false ∧
      (c == '\t' || c == '\r' || c == '\n') = false ∧ c ≠ ':')
    (hh : ∀ c ∈ host, plainChar c = true)
    (hp : ∀ c ∈ path, pathChar c = true)
    (ht : ∀ c ∈ tag, pathChar c = true)
    (hsub : ∀ c ∈ sub, pathChar c = true)
    :
    pyUrlsplit (assembledUrl scheme host path tag sub) =
      { scheme := scheme, netloc := host,
        path := '/' :: (path ++ strC ".git@" ++ tag),
        params := [], query := [],
        fragment := strC "subdirectory=" ++ sub } := by
  have hclean : ∀ c ∈ assembledUrl scheme host path tag sub,
      isC0OrSpace c = false ∧ (c == '\t' || c == '\r' || c == '\n') = false := by
    intro c hc
    simp only [assembledUrl, List.mem_append] at hc
    rcases hc with ((((((((hc | hc) | hc) | hc) | hc) | hc) | hc) | hc) | hc)
    · exact ⟨(hs5 c hc).1, (hs5 c hc).2.1⟩
    · exact (by decide : ∀ x ∈ strC "://", isC0OrSpace x = false ∧
        (x == '\t' || x == '\r' || x == '\n') = false) c hc
    · exact cleanA c (plainChar_pathChar c (hh c hc))
    · exact (by decide : ∀ x ∈ strC "/", isC0OrSpace x = false ∧
        (x == '\t' || x == '\r' || x == '\n') = false) c hc
    · exact cleanA c (hp c hc)
    · exact (by decide : ∀ x ∈ strC ".git@", isC0OrSpace x = false ∧
        (x == '\t' || x == '\r' || x == '\n') = false) c hc
    · exact cleanA c (ht c hc)
    · exact (by decide : ∀ x ∈ strC "#subdirectory=", isC0OrSpace x = false ∧
        (x == '\t' || x == '\r' || x == '\n') = false) c hc
    · exact cleanA c (hsub c hc)
  have hshape : assembledUrl scheme host path tag sub =
      scheme ++ ':' :: ('/' :: '/' ::
        (host ++ '/' :: (path ++ strC ".git@" ++ tag ++
          '#' :: (strC "subdirectory=" ++ sub)))) := by
    have e1 : strC "://" = ':' :: '/' :: '/' :: ([] : Str) := rfl
    have e3 : strC "#subdirectory=" = '#' :: strC "subdirectory=" := rfl
    have e2 : strC "/" = '/' :: ([] : Str) := rfl
    simp only [assembledUrl, e1, e2, e3, List.append_assoc, List.cons_append,
      List.nil_append]
  have hpre := preprocessUrl_id _ hclean
  have h1 : splitOnceCh ':' (assembledUrl scheme host path tag sub) =
      some (scheme, '/' :: '/' ::
        (host ++ '/' :: (path ++ strC ".git@" ++ tag ++
          '#' :: (strC "subdirectory=" ++ sub)))) := by
    rw [hshape]
    exact splitOnceCh_append ':' scheme _ (fun x hx => (hs5 x hx).2.2)
  have hsw : startsWithCL (strC "//") ('/' :: '/' ::
      (host ++ '/' :: (path ++ strC ".git@" ++ tag ++
        '#' :: (strC "subdirectory=" ++ sub)))) = true := rfl
  have hnp : ∀ c ∈ host, (!(c == '/' || c == '?' || c == '#')) = true := by
    intro c hc
    have q1 : c ≠ '/' := fun he => absurd (he ▸ hh c hc) (by decide)
    have q2 : c ≠ '?' := fun he => absurd (he ▸ hh c hc) (by decide)
    have q3 : c ≠ '#' := fun he => absurd (he ▸ hh c hc) (by decide)
    simp [q1, q2, q3]
  have h2take : (host ++ '/' :: (path ++ strC ".git@" ++ tag ++
      '#' :: (strC "subdirectory=" ++ sub))).takeWhile
        (fun c => !(c == '/' || c == '?' || c == '#')) = host :=
    takeWhile_append_of _ host '/' _ hnp (by decide)
  have h2drop : (host ++ '/' :: (path ++ strC ".git@" ++ tag ++
      '#' :: (strC "subdirectory=" ++ sub))).dropWhile
        (fun c => !(c == '/' || c == '?' || c == '#')) =
      '/' :: (path ++ strC ".git@" ++ tag ++ '#' :: (strC "subdirectory=" ++ sub)) :=
    dropWhile_append_of _ host '/' _ hnp (by decide)
  have hassoc : '/' :: (path ++ strC ".git@" ++ tag ++
      '#' :: (strC "subdirectory=" ++ sub)) =
      ('/' :: (path ++ strC ".git@" ++ tag)) ++ '#' :: (strC "subdirectory=" ++ sub) := by
    simp [List.append_assoc]
  have hnohash : ∀ x ∈ '/' :: (path ++ strC ".git@" ++ tag), x ≠ '#' := by
    intro x hx
    simp only [List.mem_cons, List.mem_append] at hx
    rcases hx with rfl | (hx | hx) | hx
    · decide
    · exact pathChar_ne x '#' (hp x hx) (by decide)
    · exact (by decide : ∀ y ∈ strC ".git@", y ≠ '#') x hx
    · exact pathChar_ne x '#' (ht x hx) (by decide)
  have h3 : splitOnceCh '#' ('/' :: (path ++ strC ".git@" ++ tag ++
      '#' :: (strC "subdirectory=" ++ sub))) =
      some ('/' :: (path ++ strC ".git@" ++ tag), strC "subdirectory=" ++ sub) := by
    rw [hassoc]
    exact splitOnceCh_append '#' _ _ hnohash
  have hnoq : ∀ x ∈ '/' :: (path ++ strC ".git@" ++ tag), x ≠ '?' := by
    intro x hx
    simp only [List.mem_cons, List.mem_append] at hx
    rcases hx with rfl | (hx | hx) | hx
    · decide
    · exact pathChar_ne x '?' (hp x hx) (by decide)
    · exact (by decide : ∀ y ∈ strC ".git@", y ≠ '?') x hx
    · exact pathChar_ne x '?' (ht x hx) (by decide)
  have h4 : splitOnceCh '?' ('/' :: (path ++ strC ".git@" ++ tag)) = none :=
    splitOnceCh_not_mem _ _ hnoq
  simp only [pyUrlsplit, hpre, h1,
    if_pos (⟨hs1, hs2, hs3⟩ : scheme ≠ [] ∧ (scheme.headD ' ').isAlpha = true ∧
      scheme.all schemeChar = true),
    hs4, hsw, if_true, List.drop_succ_cons, List.drop_zero, h2take, h2drop, h3, h4]

set_option maxHeartbeats 1000000 in
theorem parse_assembled (scheme host path tag sub : Str)
    (hs1 : scheme ≠ [])
    (hs2 : (scheme.headD ' ').isAlpha = true)
    (hs3 : scheme.all schemeChar = true)
    (hs4 : scheme.map Char.toLower = scheme)
    (hs5 : ∀ c ∈ scheme, isC0OrSpace c = false ∧
      (c == '\t' || c == '\r' || c == '\n') = false ∧ c ≠ ':')
    (hh : ∀ c ∈ host, plainChar c = true)
    (hp : ∀ c ∈ path, pathChar c = true)
    (ht : ∀ c ∈ tag, pathChar c = true)
    (hsub : ∀ c ∈ sub, pathChar c = true)
    (hs6 : scheme ∉ usesParams) :
    pyUrlparse (assembledUrl scheme host path tag sub) =
      { scheme := scheme, netloc := host,
        path := '/' :: (path ++ strC ".git@" ++ tag),
        params := [], query := [],
        fragment := strC "subdirectory=" ++ sub } := by
  simp only [pyUrlparse,
    split_assembled scheme host path tag sub hs1 hs2 hs3 hs4 hs5 hh hp ht hsub]
  rw [if_neg (fun hand => hs6 hand.1)]

theorem guessExplicit_fields (wf : ParseResult) (ls : LsOracle) (http : HttpOracle)
    (fail_ok : Bool) (r : RemoteRepo)
    (hs : wf.scheme ∈ gitSchemeHandlers)
    (hok : guess_git_repo_params wf ls http fail_ok = .ok (some r)) :
    r.repo_url = pyUrlunparse
      { scheme := gitSchemeOf wf.scheme, netloc := wf.netloc,
        path := (gitPathTag wf.path).1, params := [], query := [], fragment := [] } ∧
    r.rel_path = getSubdirectory wf.fragment ∧
    ∀ t, (gitPathTag wf.path).2 = some t → r.tag = some t := by
  rw [guess_git_repo_params, if_pos hs] at hok
  simp only [guessExplicitScheme] at hok
  split at hok
  · exact absurd hok (by simp)
  · split at hok
    · exact absurd hok (by simp)
    · rename_i hfo
      simp only [finishGuess, if_neg hfo, Option.map_some'] at hok
      simp only [Except.ok.injEq, Option.some.injEq] at hok
      subst hok
      refine ⟨rfl, rfl, ?_⟩
      intro t ht
      simp only [ht]
  · simp only [finishGuess, Option.map_some'] at hok
    simp only [Except.ok.injEq, Option.some.injEq] at hok
    subst hok
    refine ⟨rfl, rfl, ?_⟩
    intro t ht
    simp only [ht]

set_option maxHeartbeats 1000000 in
/-- Claim C5, amended.  Round-trip for the explicit schemes: resolving
scheme://host/path.git@TAG#subdirectory=SUB yields tag = TAG and
rel_path = SUB, and repo_url is host/path.git under the scheme with any
leading git+ stripped (so only the plain git scheme is preserved
verbatim; git+https and git+http come back as https and http).  Holds for
components over ordinary URL characters (letters, digits, hyphen,
underscore, dot, plus the slash outside the host), SUB nonempty, whenever
a RemoteRepo is returned at all. -/
theorem C5_amended (scheme host path tag sub : Str) (ls : LsOracle) (http : HttpOracle)
    (fail_ok : Bool) (r : RemoteRepo)
    (hs : scheme ∈ gitSchemeHandlers)
    (hh : ∀ c ∈ host, plainChar c = true) (hh0 : host ≠ [])
    (hp : ∀ c ∈ path, pathChar c = true)
    (ht : ∀ c ∈ tag, pathChar c = true)
    (hsub : ∀ c ∈ sub, pathChar c = true) (hsub0 : sub ≠ [])
    (hok : guess_git_repo_params_str (assembledUrl scheme host path tag sub) ls http fail_ok
      = .ok (some r)) :
    r.repo_url = gitSchemeOf scheme ++ ':' :: '/' :: '/' :: (host ++ '/' :: (path ++ strC ".git")) ∧
    r.tag = some tag ∧
    r.rel_path = some sub := by
  have hs0 := hs
  have hsfacts : scheme ≠ [] ∧ (scheme.headD ' ').isAlpha = true ∧
      scheme.all schemeChar = true ∧ scheme.map Char.toLower = scheme ∧
      (∀ c ∈ scheme, isC0OrSpace c = false ∧
        (c == '\t' || c == '\r' || c == '\n') = false ∧ c ≠ ':') ∧
      scheme ∉ usesParams ∧
      (gitSchemeOf scheme ≠ []) := by
    simp only [gitSchemeHandlers, List.mem_cons, List.not_mem_nil, or_false] at hs
    rcases hs with rfl | rfl | rfl <;> exact (by decide)
  have hparse := parse_assembled scheme host path tag sub hsfacts.1 hsfacts.2.1
    hsfacts.2.2.1 hsfacts.2.2.2.1 hsfacts.2.2.2.2.1 hh hp ht hsub hsfacts.2.2.2.2.2.1
  rw [guess_git_repo_params_str, hparse] at hok
  have hfields := guessExplicit_fields _ ls http fail_ok r hs0 hok
  dsimp only at hfields
  have hgpt : gitPathTag ('/' :: (path ++ strC ".git@" ++ tag)) =
      ('/' :: (path ++ strC ".git"), some tag) := by
    have hsh : '/' :: (path ++ strC ".git@" ++ tag) =
        ('/' :: (path ++ strC ".git")) ++ '@' :: tag := by
      have e : strC ".git@" = strC ".git" ++ '@' :: ([] : Str) := rfl
      simp [e, List.append_assoc]
    rw [gitPathTag, hsh, splitOnceCh_append '@' _ tag ?hna]
    case hna =>
      intro x hx
      simp only [List.mem_cons, List.mem_append] at hx
      rcases hx with rfl | hx | hx
      · decide
      · exact pathChar_ne x '@' (hp x hx) (by decide)
      · exact (by decide : ∀ y ∈ strC ".git", y ≠ '@') x hx
  have hlen13 : (strC "subdirectory=").length = 13 := rfl
  have hne : ¬(strC "subdirectory=" ++ sub = []) := by
    intro h
    have hL := congrArg List.length h
    rw [List.length_append, hlen13] at hL
    simp at hL
  have hsplit : splitOnceCh '=' (strC "subdirectory=" ++ sub) =
      some (strC "subdirectory", sub) := by
    rw [show strC "subdirectory=" ++ sub = strC "subdirectory" ++ '=' :: sub from rfl]
    exact splitOnceCh_append '=' _ _ (by decide)
  have huq : unquotePlus sub = sub :=
    unquotePlus_id sub (fun c hc => ⟨pathChar_ne c '+' (hsub c hc) (by decide),
      pathChar_ne c '%' (hsub c hc) (by decide)⟩)
  have hq : qsPair (strC "subdirectory=" ++ sub) = some (strC "subdirectory", sub) := by
    simp only [qsPair, if_neg hne, hsplit, if_neg hsub0, huq,
      show unquotePlus (strC "subdirectory") = strC "subdirectory" from by decide]
  have hsub2 : getSubdirectory (strC "subdirectory=" ++ sub) = some sub := by
    rw [getSubdirectory, if_pos ?hlen]
    case hlen =>
      rw [List.length_append, hlen13]
      omega
    rw [parseQsl, splitCh_single '&' _ ?hna]
    case hna =>
      intro x hx
      simp only [List.mem_append] at hx
      rcases hx with hx | hx
      · exact (by decide : ∀ y ∈ strC "subdirectory=", y ≠ '&') x hx
      · exact pathChar_ne x '&' (hsub x hx) (by decide)
    simp [List.filterMap_cons, hq, List.findSome?]
  have hunparse : pyUrlunparse
      { scheme := gitSchemeOf scheme, netloc := host,
        path := '/' :: (path ++ strC ".git"), params := [], query := [], fragment := [] } =
      gitSchemeOf scheme ++ ':' :: '/' :: '/' :: (host ++ '/' :: (path ++ strC ".git")) := by
    have e2 : strC "//" = '/' :: '/' :: ([] : Str) := rfl
    have e3 : strC "/" = '/' :: ([] : Str) := rfl
    simp [pyUrlunparse, pyUrlunsplit, hh0, hsfacts.2.2.2.2.2.2, e2, e3]
  refine ⟨?_, ?_, ?_⟩
  · rw [hfields.1, hgpt, hunparse]
  · exact hfields.2.2 tag (by rw [hgpt])
  · rw [hfields.2.1, hsub2]

/-- Witness for C5_amended: the git+https round trip with an unreachable
remote and the fail-open flag. -/
theorem C5_amended_witness :
    strC "https://h/p.git" = gitSchemeOf (strC "git+https") ++ ':' :: '/' :: '/' ::
      (strC "h" ++ '/' :: (strC "p" ++ strC ".git")) ∧
    (some (strC "t") : Option Str) = some (strC "t") ∧
    (some (strC "s") : Option Str) = some (strC "s") :=
  C5_amended (strC "git+https") (strC "h") (strC "p") (strC "t") (strC "s")
    lsFail noHttp true
    { repo_url := strC "https://h/p.git", tag := some (strC "t"),
      rel_path := some (strC "s"), repo_type := none, web_url := none }
    (by decide) (by decide) (by decide) (by decide) (by decide) (by decide) (by decide)
    (by decide)
